import Mathlib

/-!
Shallow embedding of the guest CRUD service in `src/index.ts`
(a Hono HTTP server over a single SQLite table `guests`).

Modelling conventions:
* A JSON body field is `Option JVal`: `none` is an absent (undefined)
  property, `some v` a present one; `JVal` distinguishes exactly what the
  handlers inspect (strings via `typeof`, integer numbers, `null`,
  anything else).
* The datastore is the list of rows of the `guests` table.  The SQLite
  behaviour the handlers rely on is modelled explicitly: rowid
  auto-assignment (`nextAutoId`, one more than the largest rowid, 1 on an
  empty table), the primary-key uniqueness error on INSERT, and the
  datatype error when a non-integer value is bound to the
  `INTEGER PRIMARY KEY` column.  (SQLite's numeric-string affinity
  conversion for the rowid column is not modelled; no theorem below
  depends on the behaviour of a create whose supplied guestid is a
  string.)
* A path parameter reaches a handler as `Number(c.req.param "id")`, a
  JavaScript number: modelled by `JsNum`, which separates integral values
  from everything `Number.isInteger` rejects (NaN, non-integral).
* JavaScript's `String.prototype.trim` is modelled by `jsTrim`, removal of
  leading and trailing whitespace characters.
* Each handler is a pure function from its parsed inputs and the table to
  the produced HTTP response and the new table; `none` for a body models
  a request whose JSON parsing failed.
-/

namespace GuestApi

/-- A JSON value as far as the handlers can distinguish one: a string, an
integer number, a non-integral number (including NaN), a boolean, null, or
any other value (object / array). -/
inductive JVal where
  | jstr (s : String)
  | jint (n : Int)
  | jnum
  | jbool (b : Bool)
  | jnull
  | jobj
deriving DecidableEq

/-- The parsed JSON request body (TypeScript type `GuestInput`): every
property optional, values unchecked at runtime. -/
structure GuestInput where
  guestid : Option JVal := none
  name : Option JVal := none
  phone : Option JVal := none
  email : Option JVal := none
  address : Option JVal := none
deriving DecidableEq

/-- A row of the `guests` table: `guestid INTEGER PRIMARY KEY`,
`name TEXT NOT NULL`, and three nullable TEXT columns. -/
structure Guest where
  guestid : Int
  name : String
  phone : Option String
  email : Option String
  address : Option String
deriving DecidableEq

/-- A JavaScript number as far as `isPositiveInt` can distinguish one:
an integral value, or anything `Number.isInteger` rejects (NaN, 2.5, …). -/
inductive JsNum where
  | int (n : Int)
  | notInt
deriving DecidableEq

/-- `Number.isInteger(n) && n > 0` (source: `isPositiveInt`). -/
def isPositiveInt : JsNum → Bool
  | .int n => n > 0
  | .notInt => false

/-- The integral value of a JavaScript number; only ever used under an
`isPositiveInt` guard, so the `notInt` branch is unreachable. -/
def JsNum.toInt : JsNum → Int
  | .int n => n
  | .notInt => 0

/-- Removal of leading and trailing whitespace from a character list. -/
def trimChars (l : List Char) : List Char :=
  ((l.dropWhile Char.isWhitespace).reverse.dropWhile Char.isWhitespace).reverse

/-- JavaScript `String.prototype.trim`. -/
def jsTrim (s : String) : String :=
  ⟨trimChars s.data⟩

/-- `typeof body.name !== "string" || body.name.trim() === ""`
(the name check of `validateGuest`). -/
def nameInvalid (v : Option JVal) : Bool :=
  match v with
  | some (.jstr s) => jsTrim s == ""
  | _ => true

/-- `body.f !== undefined && typeof body.f !== "string"` (the check
`validateGuest` applies to each of `phone`, `email`, `address`). -/
def optFieldInvalid (v : Option JVal) : Bool :=
  match v with
  | none => false
  | some (.jstr _) => false
  | some _ => true

/-- Source `validateGuest`: pushes each violated rule's message, in
source order, onto an initially empty list. -/
def validateGuest (body : GuestInput) : List String :=
  (if nameInvalid body.name then ["name is required (non-empty string)"] else [])
    ++ (if optFieldInvalid body.phone then ["phone must be string if provided"] else [])
    ++ (if optFieldInvalid body.email then ["email must be string if provided"] else [])
    ++ (if optFieldInvalid body.address then ["address must be string if provided"] else [])

/-- `body.name!.trim()`'s argument: the string content of the name field.
The fallback branch is unreachable once `validateGuest` returned `[]`. -/
def nameOf (body : GuestInput) : String :=
  match body.name with
  | some (.jstr s) => s
  | _ => ""

/-- `body.f ?? null` for an optional field, as bound into SQL: a present
string stays, an absent field becomes NULL.  The non-string branch is
unreachable once `validateGuest` returned `[]`. -/
def strOrNull (v : Option JVal) : Option String :=
  match v with
  | some (.jstr s) => some s
  | _ => none

/-- `body.guestid ?? null`: the value bound into the `guestid` column,
`none` when the body's guestid is nullish (absent or null). -/
def suppliedGuestId (v : Option JVal) : Option JVal :=
  match v with
  | none => none
  | some .jnull => none
  | some w => some w

/-- `SELECT * FROM guests WHERE guestid = ?` (first matching row). -/
def findGuest (t : List Guest) (i : Int) : Option Guest :=
  t.find? (fun g => g.guestid == i)

/-- SQLite's rowid auto-assignment for `INTEGER PRIMARY KEY`: one more
than the largest rowid in the table, 1 when the table is empty. -/
def nextAutoId (t : List Guest) : Int :=
  match t.map (fun g => g.guestid) with
  | [] => 1
  | x :: xs => xs.foldl max x + 1

/-- The JSON responses the handlers produce: a single guest object, the
guest array, a `{message}` object, a `{message, errors}` object, or the
`{message: "internal error", error}` object of the POST catch block. -/
inductive ApiResult where
  | guest (status : Nat) (g : Guest)
  | guestList (gs : List Guest)
  | msg (status : Nat) (m : String)
  | validation (status : Nat) (m : String) (errors : List String)
  | internal (err : String)
deriving DecidableEq

/-- The HTTP status of a response (500 for the catch block). -/
def ApiResult.status : ApiResult → Nat
  | .guest s _ => s
  | .guestList _ => 200
  | .msg s _ => s
  | .validation s _ _ => s
  | .internal _ => 500

/-- Outcome of the INSERT statement: the assigned rowid, or a thrown
SQLite error. -/
inductive InsertOutcome where
  | inserted (rowid : Int)
  | failed (err : String)
deriving DecidableEq

/-- `INSERT INTO guests (guestid, name, phone, email, address) VALUES
(?, ?, ?, ?, ?)`: a nullish guestid lets SQLite auto-assign the rowid; an
integer guestid is used as-is and collides with an existing row as a
UNIQUE-constraint error; any other bound value fails the rowid's integer
requirement.  A failed INSERT leaves the table unchanged. -/
def dbInsert (gid : Option JVal) (nm : String) (ph em ad : Option String)
    (t : List Guest) : InsertOutcome × List Guest :=
  match gid with
  | none =>
    let rid := nextAutoId t
    (.inserted rid, t ++ [⟨rid, nm, ph, em, ad⟩])
  | some (.jint n) =>
    if (findGuest t n).isSome then
      (.failed "UNIQUE constraint failed: guests.guestid", t)
    else
      (.inserted n, t ++ [⟨n, nm, ph, em, ad⟩])
  | some _ => (.failed "datatype mismatch", t)

/-- Handler `GET /api/guests`. -/
def listGuests (t : List Guest) : ApiResult × List Guest :=
  (.guestList t, t)

/-- Handler `GET /api/guests/:id`. -/
def getGuest (idv : JsNum) (t : List Guest) : ApiResult × List Guest :=
  if isPositiveInt idv = false then
    (.msg 400 "guestid must be positive integer", t)
  else
    match findGuest t idv.toInt with
    | none => (.msg 404 "guest not found", t)
    | some row => (.guest 200 row, t)

/-- Handler `POST /api/guests` (`body? = none` models a body whose JSON
parsing failed). -/
def createGuest (body? : Option GuestInput) (t : List Guest) :
    ApiResult × List Guest :=
  match body? with
  | none => (.msg 400 "invalid JSON body", t)
  | some body =>
    let errors := validateGuest body
    if errors.length > 0 then
      (.validation 400 "validation error" errors, t)
    else
      let id := suppliedGuestId body.guestid
      match dbInsert id (jsTrim (nameOf body)) (strOrNull body.phone)
          (strOrNull body.email) (strOrNull body.address) t with
      | (.failed e, t2) => (.internal e, t2)
      | (.inserted rowid, t2) =>
        let guestid : Int :=
          match id with
          | some (.jint n) => n
          | _ => rowid
        match findGuest t2 guestid with
        | some created => (.guest 201 created, t2)
        | none => (.internal "row not found after insert", t2)

/-- The row written by the UPDATE statement of the PUT handler: the four
mutable columns overwritten, `guestid` kept. -/
def replaceFields (body : GuestInput) (g : Guest) : Guest :=
  { g with
    name := jsTrim (nameOf body)
    phone := strOrNull body.phone
    email := strOrNull body.email
    address := strOrNull body.address }

/-- Handler `PUT /api/guests/:id`. -/
def putGuest (idv : JsNum) (body? : Option GuestInput) (t : List Guest) :
    ApiResult × List Guest :=
  if isPositiveInt idv = false then
    (.msg 400 "guestid must be positive integer", t)
  else
    let i := idv.toInt
    match findGuest t i with
    | none => (.msg 404 "guest not found", t)
    | some _ =>
      match body? with
      | none => (.msg 400 "invalid JSON body", t)
      | some body =>
        let errors := validateGuest body
        if errors.length > 0 then
          (.validation 400 "validation error" errors, t)
        else
          let t2 := t.map (fun g => if g.guestid == i then replaceFields body g else g)
          match findGuest t2 i with
          | some updated => (.guest 200 updated, t2)
          | none => (.internal "row not found after update", t2)

/-- Handler `DELETE /api/guests/:id`: the DELETE statement runs first,
then `info.changes` decides the response. -/
def deleteGuest (idv : JsNum) (t : List Guest) : ApiResult × List Guest :=
  if isPositiveInt idv = false then
    (.msg 400 "guestid must be positive integer", t)
  else
    let i := idv.toInt
    let remaining := t.filter (fun g => !(g.guestid == i))
    let changes := t.length - remaining.length
    if changes = 0 then
      (.msg 404 "guest not found", remaining)
    else
      (.msg 200 "deleted", remaining)

/-- One HTTP request, dispatched by the router. -/
inductive Request where
  | list
  | get (idv : JsNum)
  | create (body? : Option GuestInput)
  | put (idv : JsNum) (body? : Option GuestInput)
  | del (idv : JsNum)
deriving DecidableEq

/-- Dispatch one request against the current table. -/
def applyRequest : Request → List Guest → ApiResult × List Guest
  | .list, t => listGuests t
  | .get idv, t => getGuest idv t
  | .create body?, t => createGuest body? t
  | .put idv body?, t => putGuest idv body? t
  | .del idv, t => deleteGuest idv t

/-- The table after a sequence of requests. -/
def runRequests (rs : List Request) (t : List Guest) : List Guest :=
  rs.foldl (fun s r => (applyRequest r s).2) t

/-- The datastore invariant of the spec: `guestid` unique and positive,
`name` never empty after trimming. -/
def Inv (t : List Guest) : Prop :=
  (t.map (fun g => g.guestid)).Nodup
    ∧ (∀ g ∈ t, 0 < g.guestid)
    ∧ (∀ g ∈ t, jsTrim g.name ≠ "")

instance (t : List Guest) : Decidable (Inv t) := by
  unfold Inv; infer_instance

/-- The record a successful create or replace writes for body `b` at
guestid `i`: trimmed name, optional fields as bound (null when absent). -/
def newGuest (b : GuestInput) (i : Int) : Guest :=
  ⟨i, jsTrim (nameOf b), strOrNull b.phone, strOrNull b.email, strOrNull b.address⟩

/-- A create request that supplies a guestid supplies a positive integer
(the restriction under which the spec's positivity invariant is
provable). -/
def goodCreateId : Option JVal → Bool
  | none => true
  | some (.jint n) => decide (0 < n)
  | some _ => false

/-- Requests whose supplied guestid (if any) is a positive integer; every
non-create request qualifies. -/
def goodReq : Request → Bool
  | .create (some b) => goodCreateId (suppliedGuestId b.guestid)
  | _ => true

/-! ### Lemmas about trimming -/

theorem trimChars_dropWhile (l : List Char) :
    (trimChars l).dropWhile Char.isWhitespace = trimChars l := by
  rw [List.dropWhile_eq_self_iff]
  intro hl
  have hpre : trimChars l <+: l.dropWhile Char.isWhitespace :=
    List.rdropWhile_prefix Char.isWhitespace (l.dropWhile Char.isWhitespace)
  have h0 : 0 < (l.dropWhile Char.isWhitespace).length :=
    lt_of_lt_of_le hl hpre.length_le
  have hget : (trimChars l).get ⟨0, hl⟩
      = (l.dropWhile Char.isWhitespace).get ⟨0, h0⟩ := by
    simpa [List.get_eq_getElem] using hpre.getElem hl
  rw [hget]
  exact List.dropWhile_get_zero_not _ _ h0

theorem trimChars_idem (l : List Char) :
    trimChars (trimChars l) = trimChars l := by
  have h1 : trimChars (trimChars l)
      = List.rdropWhile Char.isWhitespace
          ((trimChars l).dropWhile Char.isWhitespace) := rfl
  rw [h1, trimChars_dropWhile]
  exact List.rdropWhile_idempotent _ _

theorem jsTrim_idem (s : String) : jsTrim (jsTrim s) = jsTrim s :=
  congrArg String.mk (trimChars_idem s.data)

/-! ### Lemmas about the datastore -/

theorem foldl_max_le (xs : List Int) (x : Int) :
    x ≤ xs.foldl max x ∧ ∀ a ∈ xs, a ≤ xs.foldl max x := by
  induction xs generalizing x with
  | nil => exact ⟨le_refl x, by simp⟩
  | cons y ys ih =>
    have h := ih (max x y)
    refine ⟨le_trans (le_max_left x y) h.1, ?_⟩
    intro a ha
    rcases List.mem_cons.mp ha with rfl | ha2
    · exact le_trans (le_max_right x a) h.1
    · exact h.2 a ha2

theorem guestid_lt_nextAutoId (t : List Guest) :
    ∀ g ∈ t, g.guestid < nextAutoId t := by
  intro g hg
  unfold nextAutoId
  cases t with
  | nil => cases hg
  | cons h tl =>
    simp only [List.map_cons]
    have hmax := foldl_max_le (tl.map fun g => g.guestid) h.guestid
    rcases List.mem_cons.mp hg with rfl | hmem
    · exact Int.lt_add_one_iff.mpr hmax.1
    · exact Int.lt_add_one_iff.mpr
        (hmax.2 g.guestid (List.mem_map.mpr ⟨g, hmem, rfl⟩))

theorem nextAutoId_pos (t : List Guest) (h : ∀ g ∈ t, 0 < g.guestid) :
    0 < nextAutoId t := by
  unfold nextAutoId
  cases t with
  | nil => decide
  | cons g tl =>
    simp only [List.map_cons]
    have hmax := foldl_max_le (tl.map fun g => g.guestid) g.guestid
    have hg : 0 < g.guestid := h g (by simp)
    omega

theorem findGuest_eq_none_iff (t : List Guest) (i : Int) :
    findGuest t i = none ↔ ∀ g ∈ t, g.guestid ≠ i := by
  unfold findGuest
  rw [List.find?_eq_none]
  constructor
  · intro h g hg
    have := h g hg
    simpa using this
  · intro h g hg
    simpa using h g hg

theorem findGuest_some_id (t : List Guest) (i : Int) (g : Guest)
    (h : findGuest t i = some g) : g.guestid = i := by
  have := List.find?_some h
  simpa using this

theorem findGuest_some_mem (t : List Guest) (i : Int) (g : Guest)
    (h : findGuest t i = some g) : g ∈ t :=
  List.mem_of_find?_eq_some h

theorem findGuest_append_fresh (t : List Guest) (g : Guest)
    (h : ∀ g2 ∈ t, g2.guestid ≠ g.guestid) :
    findGuest (t ++ [g]) g.guestid = some g := by
  induction t with
  | nil => simp [findGuest, List.find?]
  | cons a tl ih =>
    have ha : (a.guestid == g.guestid) = false := by
      simpa using h a (by simp)
    have htl := ih fun g2 hg2 => h g2 (by simp [hg2])
    simpa [findGuest, List.find?_cons, ha] using htl

theorem findGuest_map_pres (u : Guest → Guest)
    (hu : ∀ g, (u g).guestid = g.guestid) (t : List Guest) (i : Int) :
    findGuest (t.map u) i = Option.map u (findGuest t i) := by
  induction t with
  | nil => rfl
  | cons a tl ih =>
    simp only [findGuest, List.map_cons, List.find?_cons] at ih ⊢
    rw [hu a]
    cases h : (a.guestid == i) <;> simp [h, ih]

theorem updateRow_pres (i : Int) (b : GuestInput) (g : Guest) :
    ((if g.guestid == i then replaceFields b g else g) : Guest).guestid
      = g.guestid := by
  by_cases h : (g.guestid == i) = true <;> simp [h, replaceFields]

theorem findGuest_update (t : List Guest) (i : Int) (b : GuestInput) :
    findGuest (t.map fun g => if g.guestid == i then replaceFields b g else g) i
      = Option.map (replaceFields b) (findGuest t i) := by
  rw [findGuest_map_pres _ (updateRow_pres i b) t i]
  cases h : findGuest t i with
  | none => rfl
  | some g =>
    have hg : g.guestid = i := findGuest_some_id t i g h
    simp [hg]

theorem findGuest_update_ne (t : List Guest) (i : Int) (b : GuestInput)
    (i' : Int) (h : i' ≠ i) :
    findGuest (t.map fun g => if g.guestid == i then replaceFields b g else g) i'
      = findGuest t i' := by
  rw [findGuest_map_pres _ (updateRow_pres i b) t i']
  cases hf : findGuest t i' with
  | none => rfl
  | some g =>
    have hg : g.guestid = i' := findGuest_some_id t i' g hf
    have hne : (g.guestid == i) = false := by
      rw [hg]
      simpa using h
    simp only [Option.map, hne, Bool.false_eq_true, if_false]

theorem findGuest_filter_ne (t : List Guest) (n i : Int) (h : i ≠ n) :
    findGuest (t.filter fun g => !(g.guestid == n)) i = findGuest t i := by
  induction t with
  | nil => rfl
  | cons a tl ih =>
    simp only [findGuest, List.filter_cons] at ih ⊢
    cases hn : (a.guestid == n) with
    | true =>
      have han : a.guestid = n := by simpa using hn
      have hi : (a.guestid == i) = false := by
        rw [han]
        simpa using fun he => h he.symm
      simp [hn, List.find?_cons, hi, ih]
    | false =>
      cases hi : (a.guestid == i) <;> simp [hn, List.find?_cons, hi, ih]

theorem findGuest_filter_self (t : List Guest) (n : Int) :
    findGuest (t.filter fun g => !(g.guestid == n)) n = none := by
  rw [findGuest_eq_none_iff]
  intro g hg
  have := List.of_mem_filter hg
  simpa using this

/-! ### Lemmas about the validator -/

theorem validateGuest_nil_iff (b : GuestInput) :
    validateGuest b = []
      ↔ nameInvalid b.name = false ∧ optFieldInvalid b.phone = false
          ∧ optFieldInvalid b.email = false ∧ optFieldInvalid b.address = false := by
  cases h1 : nameInvalid b.name <;> cases h2 : optFieldInvalid b.phone
    <;> cases h3 : optFieldInvalid b.email <;> cases h4 : optFieldInvalid b.address
    <;> simp [validateGuest, h1, h2, h3, h4]

theorem nameInvalid_false (v : Option JVal) (h : nameInvalid v = false) :
    ∃ s, v = some (.jstr s) ∧ jsTrim s ≠ "" := by
  match v with
  | some (.jstr s) =>
    refine ⟨s, rfl, ?_⟩
    simpa [nameInvalid] using h
  | none | some (.jint _) | some .jnum | some (.jbool _) | some .jnull | some .jobj =>
    simp [nameInvalid] at h

theorem nameOf_valid (b : GuestInput) (h : validateGuest b = []) :
    jsTrim (nameOf b) ≠ "" := by
  obtain ⟨s, hs, hne⟩ :=
    nameInvalid_false b.name ((validateGuest_nil_iff b).mp h).1
  rw [nameOf, hs]
  exact hne

/-! ### Characterizations of the handlers -/

theorem isPositiveInt_int (n : Int) (hn : 0 < n) :
    isPositiveInt (.int n) = true := by
  simp [isPositiveInt]
  omega

theorem createGuest_valid_auto (b : GuestInput) (t : List Guest)
    (hv : validateGuest b = []) (hid : suppliedGuestId b.guestid = none) :
    createGuest (some b) t
      = (.guest 201 (newGuest b (nextAutoId t)), t ++ [newGuest b (nextAutoId t)]) := by
  have hfresh : ∀ g2 ∈ t, g2.guestid ≠ (newGuest b (nextAutoId t)).guestid := by
    intro g2 hg2
    have := guestid_lt_nextAutoId t g2 hg2
    simp only [newGuest]
    omega
  have hfind := findGuest_append_fresh t (newGuest b (nextAutoId t)) hfresh
  simp only [createGuest, hv, hid, dbInsert, List.length_nil]
  simp only [newGuest] at hfind
  simp [hfind, newGuest]

theorem createGuest_valid_supplied (b : GuestInput) (t : List Guest) (n : Int)
    (hv : validateGuest b = []) (hid : suppliedGuestId b.guestid = some (.jint n))
    (hfree : findGuest t n = none) :
    createGuest (some b) t = (.guest 201 (newGuest b n), t ++ [newGuest b n]) := by
  have hfresh : ∀ g2 ∈ t, g2.guestid ≠ (newGuest b n).guestid := by
    intro g2 hg2
    have := (findGuest_eq_none_iff t n).mp hfree g2 hg2
    simpa [newGuest] using this
  have hfind := findGuest_append_fresh t (newGuest b n) hfresh
  simp only [createGuest, hv, hid, dbInsert, List.length_nil, hfree]
  simp only [newGuest] at hfind
  simp [hfind, newGuest]

theorem createGuest_invalid (b : GuestInput) (t : List Guest)
    (hv : validateGuest b ≠ []) :
    createGuest (some b) t
      = (.validation 400 "validation error" (validateGuest b), t) := by
  have hlen : (validateGuest b).length > 0 := List.length_pos.mpr hv
  simp [createGuest, hlen]

theorem putGuest_valid_eq (t : List Guest) (n : Int) (g0 : Guest) (b : GuestInput)
    (hn : 0 < n) (hfind : findGuest t n = some g0) (hv : validateGuest b = []) :
    putGuest (.int n) (some b) t
      = (.guest 200 (replaceFields b g0),
         t.map fun g => if g.guestid == n then replaceFields b g else g) := by
  have hupd := findGuest_update t n b
  rw [hfind] at hupd
  simp only [putGuest, isPositiveInt_int n hn, JsNum.toInt, hfind, hv,
    List.length_nil]
  simp at hupd
  simp [hupd]

theorem length_filter_lt_of_mem_not (l : List Guest) (p : Guest → Bool)
    (a : Guest) (ha : a ∈ l) (hpa : p a = false) :
    (l.filter p).length < l.length := by
  induction l with
  | nil => cases ha
  | cons x xs ih =>
    rcases List.mem_cons.mp ha with rfl | hmem
    · have hle := List.length_filter_le p xs
      simp [List.filter_cons, hpa]
      omega
    · cases hx : p x with
      | true =>
        have := ih hmem
        simp [List.filter_cons, hx]
        omega
      | false =>
        have := ih hmem
        simp [List.filter_cons, hx]
        omega

theorem deleteGuest_found (t : List Guest) (n : Int) (g : Guest)
    (hn : 0 < n) (hfind : findGuest t n = some g) :
    deleteGuest (.int n) t
      = (.msg 200 "deleted", t.filter fun g => !(g.guestid == n)) := by
  have hmem : g ∈ t := findGuest_some_mem t n g hfind
  have hgid : g.guestid = n := findGuest_some_id t n g hfind
  have hlt : (t.filter fun g => !(g.guestid == n)).length < t.length := by
    apply length_filter_lt_of_mem_not t _ g hmem
    simp [hgid]
  have hne : t.length - (t.filter fun g => !(g.guestid == n)).length ≠ 0 := by
    omega
  simp only [deleteGuest, isPositiveInt_int n hn, JsNum.toInt]
  simp [hne]

theorem deleteGuest_missing (t : List Guest) (n : Int)
    (hn : 0 < n) (hfind : findGuest t n = none) :
    deleteGuest (.int n) t = (.msg 404 "guest not found", t) := by
  have hall : ∀ g ∈ t, g.guestid ≠ n := (findGuest_eq_none_iff t n).mp hfind
  have hfilter : (t.filter fun g => !(g.guestid == n)) = t := by
    apply List.filter_eq_self.mpr
    intro a ha
    simpa using hall a ha
  simp [deleteGuest, isPositiveInt_int n hn, JsNum.toInt, hfilter]

/-! ### Preservation of the datastore invariant -/

theorem Inv_append (t : List Guest) (g : Guest) (ht : Inv t)
    (hfresh : ∀ g2 ∈ t, g2.guestid ≠ g.guestid)
    (hpos : 0 < g.guestid) (hname : jsTrim g.name ≠ "") :
    Inv (t ++ [g]) := by
  obtain ⟨hnd, hp, hn⟩ := ht
  refine ⟨?_, ?_, ?_⟩
  · rw [List.map_append]
    refine List.Nodup.append hnd (List.nodup_singleton _) ?_
    intro x hx hx2
    simp only [List.map_cons, List.map_nil, List.mem_singleton] at hx2
    subst hx2
    obtain ⟨g2, hg2, hgid⟩ := List.mem_map.mp hx
    exact hfresh g2 hg2 hgid
  · intro g2 hg2
    rcases List.mem_append.mp hg2 with h | h
    · exact hp g2 h
    · rw [List.mem_singleton.mp h]
      exact hpos
  · intro g2 hg2
    rcases List.mem_append.mp hg2 with h | h
    · exact hn g2 h
    · rw [List.mem_singleton.mp h]
      exact hname

theorem Inv_update (t : List Guest) (i : Int) (b : GuestInput)
    (ht : Inv t) (hv : validateGuest b = []) :
    Inv (t.map fun g => if g.guestid == i then replaceFields b g else g) := by
  obtain ⟨hnd, hp, hn⟩ := ht
  refine ⟨?_, ?_, ?_⟩
  · have heq : (t.map fun g => if g.guestid == i then replaceFields b g else g).map
        (fun g => g.guestid) = t.map (fun g => g.guestid) := by
      rw [List.map_map]
      exact List.map_congr_left fun g _ => updateRow_pres i b g
    rw [heq]
    exact hnd
  · intro g2 hg2
    obtain ⟨g0, hg0, rfl⟩ := List.mem_map.mp hg2
    rw [updateRow_pres i b g0]
    exact hp g0 hg0
  · intro g2 hg2
    obtain ⟨g0, hg0, rfl⟩ := List.mem_map.mp hg2
    by_cases h : (g0.guestid == i) = true
    · rw [if_pos h]
      show jsTrim (replaceFields b g0).name ≠ ""
      simp only [replaceFields]
      rw [jsTrim_idem]
      exact nameOf_valid b hv
    · rw [if_neg h]
      exact hn g0 hg0

theorem Inv_filter (t : List Guest) (p : Guest → Bool) (ht : Inv t) :
    Inv (t.filter p) := by
  obtain ⟨hnd, hp, hn⟩ := ht
  exact ⟨List.Nodup.sublist (List.Sublist.map _ (List.filter_sublist t)) hnd,
    fun g hg => hp g (List.mem_of_mem_filter hg),
    fun g hg => hn g (List.mem_of_mem_filter hg)⟩

theorem Inv_createGuest (body? : Option GuestInput) (t : List Guest)
    (ht : Inv t) (hg : goodReq (.create body?) = true) :
    Inv (createGuest body? t).2 := by
  match body? with
  | none => simpa [createGuest] using ht
  | some b =>
    by_cases hv : validateGuest b = []
    case neg =>
      rw [createGuest_invalid b t hv]
      exact ht
    case pos =>
      have hname : jsTrim (jsTrim (nameOf b)) ≠ "" := by
        rw [jsTrim_idem]
        exact nameOf_valid b hv
      match hid : suppliedGuestId b.guestid with
      | none =>
        rw [createGuest_valid_auto b t hv hid]
        apply Inv_append t _ ht
        · intro g2 hg2
          have := guestid_lt_nextAutoId t g2 hg2
          simp only [newGuest]
          omega
        · simpa [newGuest] using nextAutoId_pos t ht.2.1
        · simpa [newGuest] using hname
      | some (.jint n) =>
        have hn : 0 < n := by
          simpa [goodReq, hid, goodCreateId] using hg
        cases hfree : findGuest t n with
        | none =>
          rw [createGuest_valid_supplied b t n hv hid hfree]
          apply Inv_append t _ ht
          · intro g2 hg2
            have := (findGuest_eq_none_iff t n).mp hfree g2 hg2
            simpa [newGuest] using this
          · simpa [newGuest] using hn
          · simpa [newGuest] using hname
        | some g0 =>
          have heq : createGuest (some b) t
              = (.internal "UNIQUE constraint failed: guests.guestid", t) := by
            simp [createGuest, hv, hid, dbInsert, hfree]
          rw [heq]
          exact ht
      | some (.jstr s) | some .jnum | some (.jbool _) | some .jnull | some .jobj =>
        simp [goodReq, hid, goodCreateId] at hg

theorem Inv_putGuest (idv : JsNum) (body? : Option GuestInput) (t : List Guest)
    (ht : Inv t) : Inv (putGuest idv body? t).2 := by
  cases idv with
  | notInt => simpa [putGuest, isPositiveInt] using ht
  | int n =>
    by_cases hn : 0 < n
    case neg =>
      have hbad : isPositiveInt (.int n) = false := by
        simp [isPositiveInt]
        omega
      simpa [putGuest, hbad] using ht
    case pos =>
      cases hfind : findGuest t n with
      | none =>
        simpa [putGuest, isPositiveInt_int n hn, JsNum.toInt, hfind] using ht
      | some g0 =>
        match body? with
        | none =>
          simpa [putGuest, isPositiveInt_int n hn, JsNum.toInt, hfind] using ht
        | some b =>
          by_cases hv : validateGuest b = []
          · rw [putGuest_valid_eq t n g0 b hn hfind hv]
            exact Inv_update t n b ht hv
          · have hlen : 0 < (validateGuest b).length := List.length_pos.mpr hv
            simpa [putGuest, isPositiveInt_int n hn, JsNum.toInt, hfind, hlen]
              using ht

theorem Inv_deleteGuest (idv : JsNum) (t : List Guest) (ht : Inv t) :
    Inv (deleteGuest idv t).2 := by
  unfold deleteGuest
  by_cases hpos : isPositiveInt idv = false
  · rw [if_pos hpos]
    exact ht
  · rw [if_neg hpos]
    by_cases hch : t.length - ((t.filter fun g => !(g.guestid == idv.toInt))).length = 0
    · rw [if_pos hch]
      exact Inv_filter t _ ht
    · rw [if_neg hch]
      exact Inv_filter t _ ht

theorem Inv_applyRequest (r : Request) (t : List Guest)
    (ht : Inv t) (hr : goodReq r = true) : Inv (applyRequest r t).2 := by
  match r with
  | .list => exact ht
  | .get idv =>
    show Inv (getGuest idv t).2
    unfold getGuest
    by_cases hpos : isPositiveInt idv = false
    · rw [if_pos hpos]
      exact ht
    · rw [if_neg hpos]
      cases findGuest t idv.toInt <;> exact ht
  | .create body? => exact Inv_createGuest body? t ht hr
  | .put idv body? => exact Inv_putGuest idv body? t ht
  | .del idv => exact Inv_deleteGuest idv t ht

theorem Inv_runRequests (rs : List Request) (t : List Guest)
    (ht : Inv t) (hrs : ∀ r ∈ rs, goodReq r = true) :
    Inv (runRequests rs t) := by
  induction rs generalizing t with
  | nil => exact ht
  | cons r rest ih =>
    have h1 := Inv_applyRequest r t ht (hrs r (by simp))
    exact ih (applyRequest r t).2 h1 fun r2 hr2 => hrs r2 (by simp [hr2])

/-! ### Spec-side validation predicates

These two predicates transcribe the claim's wording (not the code) for
the refinement statements about the validator. -/

/-- Spec wording: the field is present but its value is not a string. -/
def TypeViolation (v : Option JVal) : Prop :=
  ∃ w, v = some w ∧ ∀ s, w ≠ JVal.jstr s

/-- Spec wording: `name` is missing, not a string, or empty /
whitespace-only after trimming. -/
def NameViolation (v : Option JVal) : Prop :=
  v = none ∨ TypeViolation v ∨ ∃ s, v = some (JVal.jstr s) ∧ jsTrim s = ""

theorem optFieldInvalid_iff (v : Option JVal) :
    optFieldInvalid v = true ↔ TypeViolation v := by
  constructor
  · intro h
    match v with
    | none => simp [optFieldInvalid] at h
    | some (.jstr s) => simp [optFieldInvalid] at h
    | some (.jint n) => exact ⟨.jint n, rfl, fun s hs => JVal.noConfusion hs⟩
    | some .jnum => exact ⟨.jnum, rfl, fun s hs => JVal.noConfusion hs⟩
    | some (.jbool c) => exact ⟨.jbool c, rfl, fun s hs => JVal.noConfusion hs⟩
    | some .jnull => exact ⟨.jnull, rfl, fun s hs => JVal.noConfusion hs⟩
    | some .jobj => exact ⟨.jobj, rfl, fun s hs => JVal.noConfusion hs⟩
  · rintro ⟨w, rfl, hall⟩
    cases w with
    | jstr s => exact absurd rfl (hall s)
    | jint n => rfl
    | jnum => rfl
    | jbool c => rfl
    | jnull => rfl
    | jobj => rfl

theorem nameInvalid_iff (v : Option JVal) :
    nameInvalid v = true ↔ NameViolation v := by
  constructor
  · intro h
    match v with
    | none => exact Or.inl rfl
    | some (.jstr s) =>
      refine Or.inr (Or.inr ⟨s, rfl, ?_⟩)
      have hb : (jsTrim s == "") = true := by simpa [nameInvalid] using h
      exact eq_of_beq hb
    | some (.jint n) =>
      exact Or.inr (Or.inl ⟨.jint n, rfl, fun s hs => JVal.noConfusion hs⟩)
    | some .jnum =>
      exact Or.inr (Or.inl ⟨.jnum, rfl, fun s hs => JVal.noConfusion hs⟩)
    | some (.jbool c) =>
      exact Or.inr (Or.inl ⟨.jbool c, rfl, fun s hs => JVal.noConfusion hs⟩)
    | some .jnull =>
      exact Or.inr (Or.inl ⟨.jnull, rfl, fun s hs => JVal.noConfusion hs⟩)
    | some .jobj =>
      exact Or.inr (Or.inl ⟨.jobj, rfl, fun s hs => JVal.noConfusion hs⟩)
  · intro h
    rcases h with rfl | htv | ⟨s, rfl, hs⟩
    · rfl
    · obtain ⟨w, rfl, hall⟩ := htv
      cases w with
      | jstr s => exact absurd rfl (hall s)
      | jint n => rfl
      | jnum => rfl
      | jbool c => rfl
      | jnull => rfl
      | jobj => rfl
    · simp [nameInvalid, hs]

theorem mem_validateGuest_iff (b : GuestInput) (m : String) :
    m ∈ validateGuest b ↔
      (m = "name is required (non-empty string)" ∧ nameInvalid b.name = true)
      ∨ (m = "phone must be string if provided" ∧ optFieldInvalid b.phone = true)
      ∨ (m = "email must be string if provided" ∧ optFieldInvalid b.email = true)
      ∨ (m = "address must be string if provided" ∧ optFieldInvalid b.address = true) := by
  cases h1 : nameInvalid b.name <;> cases h2 : optFieldInvalid b.phone
    <;> cases h3 : optFieldInvalid b.email <;> cases h4 : optFieldInvalid b.address
    <;> simp [validateGuest, h1, h2, h3, h4]

theorem mem_validate_name (b : GuestInput) :
    "name is required (non-empty string)" ∈ validateGuest b
      ↔ nameInvalid b.name = true := by
  rw [mem_validateGuest_iff]
  constructor
  · rintro (⟨_, h⟩ | ⟨he, _⟩ | ⟨he, _⟩ | ⟨he, _⟩)
    · exact h
    · exact absurd he (by decide)
    · exact absurd he (by decide)
    · exact absurd he (by decide)
  · intro h
    exact Or.inl ⟨rfl, h⟩

theorem mem_validate_phone (b : GuestInput) :
    "phone must be string if provided" ∈ validateGuest b
      ↔ optFieldInvalid b.phone = true := by
  rw [mem_validateGuest_iff]
  constructor
  · rintro (⟨he, _⟩ | ⟨_, h⟩ | ⟨he, _⟩ | ⟨he, _⟩)
    · exact absurd he (by decide)
    · exact h
    · exact absurd he (by decide)
    · exact absurd he (by decide)
  · intro h
    exact Or.inr (Or.inl ⟨rfl, h⟩)

theorem mem_validate_email (b : GuestInput) :
    "email must be string if provided" ∈ validateGuest b
      ↔ optFieldInvalid b.email = true := by
  rw [mem_validateGuest_iff]
  constructor
  · rintro (⟨he, _⟩ | ⟨he, _⟩ | ⟨_, h⟩ | ⟨he, _⟩)
    · exact absurd he (by decide)
    · exact absurd he (by decide)
    · exact h
    · exact absurd he (by decide)
  · intro h
    exact Or.inr (Or.inr (Or.inl ⟨rfl, h⟩))

theorem mem_validate_address (b : GuestInput) :
    "address must be string if provided" ∈ validateGuest b
      ↔ optFieldInvalid b.address = true := by
  rw [mem_validateGuest_iff]
  constructor
  · rintro (⟨he, _⟩ | ⟨he, _⟩ | ⟨he, _⟩ | ⟨_, h⟩)
    · exact absurd he (by decide)
    · exact absurd he (by decide)
    · exact absurd he (by decide)
    · exact h
  · intro h
    exact Or.inr (Or.inr (Or.inr ⟨rfl, h⟩))

/-! ### The claims -/

/-- C2: the validator collects all rule violations without
short-circuiting: the name-required message is in the result exactly when
`name` is missing, not a string, or empty/whitespace-only after trimming;
each optional field's type-error message is in the result exactly when
that field is present and not a string; no message other than these four
ever appears; and the input `{"name": ""}` yields exactly the list
`["name is required (non-empty string)"]`. -/
theorem validateGuest_collects_all_violations :
    (∀ b : GuestInput,
      ("name is required (non-empty string)" ∈ validateGuest b
          ↔ NameViolation b.name)
      ∧ ("phone must be string if provided" ∈ validateGuest b
          ↔ TypeViolation b.phone)
      ∧ ("email must be string if provided" ∈ validateGuest b
          ↔ TypeViolation b.email)
      ∧ ("address must be string if provided" ∈ validateGuest b
          ↔ TypeViolation b.address)
      ∧ ∀ m ∈ validateGuest b,
          m = "name is required (non-empty string)"
          ∨ m = "phone must be string if provided"
          ∨ m = "email must be string if provided"
          ∨ m = "address must be string if provided")
    ∧ validateGuest { name := some (.jstr "") }
        = ["name is required (non-empty string)"] := by
  constructor
  · intro b
    refine ⟨?_, ?_, ?_, ?_, ?_⟩
    · rw [mem_validate_name, nameInvalid_iff]
    · rw [mem_validate_phone, optFieldInvalid_iff]
    · rw [mem_validate_email, optFieldInvalid_iff]
    · rw [mem_validate_address, optFieldInvalid_iff]
    · intro m hm
      rw [mem_validateGuest_iff] at hm
      tauto
  · decide

/-- Witness for C2: a present boolean `phone` is reported as a type
violation. -/
theorem validateGuest_collects_all_violations_witness :
    "phone must be string if provided"
      ∈ validateGuest { name := some (.jstr "A"), phone := some (.jbool true) } :=
  ((validateGuest_collects_all_violations.1 _).2.1).mpr
    ⟨.jbool true, rfl, fun _ hs => JVal.noConfusion hs⟩

/-- C10: the validator is a pure deterministic function — equal inputs
yield the identical error list — and its output is always an
order-preserving sublist of the four messages in the fixed order name,
phone, email, address. -/
theorem validateGuest_deterministic_ordered :
    (∀ b1 b2 : GuestInput, b1 = b2 → validateGuest b1 = validateGuest b2)
    ∧ ∀ b : GuestInput,
        (validateGuest b).Sublist
          ["name is required (non-empty string)",
           "phone must be string if provided",
           "email must be string if provided",
           "address must be string if provided"] := by
  refine ⟨fun b1 b2 h => h ▸ rfl, ?_⟩
  intro b
  cases h1 : nameInvalid b.name <;> cases h2 : optFieldInvalid b.phone
    <;> cases h3 : optFieldInvalid b.email <;> cases h4 : optFieldInvalid b.address
    <;> simp [validateGuest, h1, h2, h3, h4]

/-- Witness for C10 at a concrete input with two violations. -/
theorem validateGuest_deterministic_ordered_witness :
    validateGuest { name := some (.jint 1) } = validateGuest { name := some (.jint 1) }
    ∧ (validateGuest { name := some (.jint 1), address := some (.jint 2) }).Sublist
        ["name is required (non-empty string)",
         "phone must be string if provided",
         "email must be string if provided",
         "address must be string if provided"] :=
  ⟨validateGuest_deterministic_ordered.1 _ _ rfl,
   validateGuest_deterministic_ordered.2 _⟩

/-- C7: get-by-id returns 400 "guestid must be positive integer" when the
path value is not a positive integer, 404 "guest not found" when it is
but no row matches, and otherwise 200 with the single matching record. -/
theorem getGuest_spec (idv : JsNum) (t : List Guest) :
    (isPositiveInt idv = false →
      getGuest idv t = (.msg 400 "guestid must be positive integer", t))
    ∧ (∀ n : Int, idv = .int n → 0 < n → findGuest t n = none →
        getGuest idv t = (.msg 404 "guest not found", t))
    ∧ (∀ (n : Int) (g : Guest), idv = .int n → 0 < n → findGuest t n = some g →
        getGuest idv t = (.guest 200 g, t)) := by
  refine ⟨?_, ?_, ?_⟩
  · intro h
    simp [getGuest, h]
  · rintro n rfl hn hfind
    simp [getGuest, isPositiveInt_int n hn, JsNum.toInt, hfind]
  · rintro n g rfl hn hfind
    simp [getGuest, isPositiveInt_int n hn, JsNum.toInt, hfind]

/-- Witness for C7: all three branches at concrete inputs. -/
theorem getGuest_spec_witness :
    getGuest (.int 0) [] = (.msg 400 "guestid must be positive integer", [])
    ∧ getGuest (.int 7) [] = (.msg 404 "guest not found", [])
    ∧ getGuest (.int 1) [⟨1, "a", none, none, none⟩]
        = (.guest 200 ⟨1, "a", none, none, none⟩, [⟨1, "a", none, none, none⟩]) :=
  ⟨(getGuest_spec (.int 0) []).1 (by decide),
   (getGuest_spec (.int 7) []).2.1 7 rfl (by decide) (by decide),
   (getGuest_spec (.int 1) [⟨1, "a", none, none, none⟩]).2.2 1
     ⟨1, "a", none, none, none⟩ rfl (by decide) (by decide)⟩

/-- C5: PUT on a positive id with no matching row returns 404 "guest not
found" and leaves the table unchanged, for every body — unparseable JSON
(`none`) included — because the existence lookup precedes body parsing
and validation. -/
theorem putGuest_missing_404 (n : Int) (t : List Guest) (body? : Option GuestInput)
    (hn : 0 < n) (hfind : findGuest t n = none) :
    putGuest (.int n) body? t = (.msg 404 "guest not found", t) := by
  simp [putGuest, isPositiveInt_int n hn, JsNum.toInt, hfind]

/-- Witness for C5: a missing id answers 404 both for unparseable JSON
and for a body that would fail validation. -/
theorem putGuest_missing_404_witness :
    putGuest (.int 3) none [] = (.msg 404 "guest not found", [])
    ∧ putGuest (.int 3) (some { name := some (.jstr "") }) []
        = (.msg 404 "guest not found", []) :=
  ⟨putGuest_missing_404 3 [] none (by decide) (by decide),
   putGuest_missing_404 3 [] (some { name := some (.jstr "") })
     (by decide) (by decide)⟩

/-- C6: DELETE is idempotent in effect: when a row with the id exists,
DELETE returns 200 `{message:"deleted"}` and removes exactly that row;
a second DELETE of the same id — like any DELETE of an id with no
matching row — returns 404 "guest not found" and leaves the table
unchanged. -/
theorem deleteGuest_idempotent (n : Int) (t : List Guest) (hn : 0 < n) :
    (∀ g, findGuest t n = some g →
      ∃ t2, deleteGuest (.int n) t = (.msg 200 "deleted", t2)
        ∧ findGuest t2 n = none
        ∧ (∀ i, i ≠ n → findGuest t2 i = findGuest t i)
        ∧ deleteGuest (.int n) t2 = (.msg 404 "guest not found", t2))
    ∧ (findGuest t n = none →
        deleteGuest (.int n) t = (.msg 404 "guest not found", t)) := by
  constructor
  · intro g hfind
    exact ⟨t.filter fun g => !(g.guestid == n),
      deleteGuest_found t n g hn hfind,
      findGuest_filter_self t n,
      fun i hi => findGuest_filter_ne t n i hi,
      deleteGuest_missing _ n hn (findGuest_filter_self t n)⟩
  · exact deleteGuest_missing t n hn

/-- Witness for C6: delete id 1 from a one-row table, then delete it
again. -/
theorem deleteGuest_idempotent_witness :
    ∃ t2, deleteGuest (.int 1) [⟨1, "a", none, none, none⟩]
        = (.msg 200 "deleted", t2)
      ∧ findGuest t2 1 = none
      ∧ (∀ i, i ≠ 1 → findGuest t2 i = findGuest [⟨1, "a", none, none, none⟩] i)
      ∧ deleteGuest (.int 1) t2 = (.msg 404 "guest not found", t2) :=
  (deleteGuest_idempotent 1 [⟨1, "a", none, none, none⟩] (by decide)).1
    ⟨1, "a", none, none, none⟩ (by decide)

/-- C9: every valid create that succeeds (auto-assigned id, or supplied
fresh integer id) stores and returns the input name with leading and
trailing whitespace trimmed — the create handler trims, not only
replace. -/
theorem createGuest_trims_name (b : GuestInput) (t : List Guest)
    (hv : validateGuest b = [])
    (hid : suppliedGuestId b.guestid = none
      ∨ ∃ n, suppliedGuestId b.guestid = some (.jint n) ∧ findGuest t n = none) :
    ∃ g t2, createGuest (some b) t = (.guest 201 g, t2)
      ∧ g.name = jsTrim (nameOf b) ∧ g ∈ t2 := by
  rcases hid with hid | ⟨n, hid, hfree⟩
  · rw [createGuest_valid_auto b t hv hid]
    exact ⟨_, _, rfl, rfl, by simp⟩
  · rw [createGuest_valid_supplied b t n hv hid hfree]
    exact ⟨_, _, rfl, rfl, by simp⟩

/-- Witness for C9: creating `{"name": "  Alice  "}` stores the trimmed
name. -/
theorem createGuest_trims_name_witness :
    ∃ g t2, createGuest (some { name := some (.jstr "  Alice  ") }) []
        = (.guest 201 g, t2)
      ∧ g.name = jsTrim (nameOf { name := some (.jstr "  Alice  ") }) ∧ g ∈ t2 :=
  createGuest_trims_name { name := some (.jstr "  Alice  ") } []
    (by decide) (Or.inl (by decide))

/-- C4: a valid PUT on an existing id overwrites exactly the four mutable
fields — trimmed name, optional fields set to null when absent from the
body (full replace, not merge) — keeps the record's guestid even when the
body carries one, and leaves every record with a different guestid
unchanged. -/
theorem putGuest_full_replace (t : List Guest) (n : Int) (g0 : Guest)
    (b : GuestInput) (hn : 0 < n) (hfind : findGuest t n = some g0)
    (hv : validateGuest b = []) :
    ∃ t2, putGuest (.int n) (some b) t = (.guest 200 (replaceFields b g0), t2)
      ∧ (replaceFields b g0).guestid = n
      ∧ (replaceFields b g0).name = jsTrim (nameOf b)
      ∧ (b.phone = none → (replaceFields b g0).phone = none)
      ∧ (b.email = none → (replaceFields b g0).email = none)
      ∧ (b.address = none → (replaceFields b g0).address = none)
      ∧ findGuest t2 n = some (replaceFields b g0)
      ∧ ∀ i, i ≠ n → findGuest t2 i = findGuest t i := by
  refine ⟨_, putGuest_valid_eq t n g0 b hn hfind hv, ?_, rfl, ?_, ?_, ?_, ?_, ?_⟩
  · simp [replaceFields, findGuest_some_id t n g0 hfind]
  · intro h
    simp [replaceFields, strOrNull, h]
  · intro h
    simp [replaceFields, strOrNull, h]
  · intro h
    simp [replaceFields, strOrNull, h]
  · rw [findGuest_update t n b, hfind]
    rfl
  · intro i hi
    exact findGuest_update_ne t n b i hi

/-- Witness for C4: a PUT carrying a foreign guestid and no optional
fields on a fully-populated row. -/
theorem putGuest_full_replace_witness :
    ∃ t2, putGuest (.int 1)
          (some { name := some (.jstr "Bob"), guestid := some (.jint 9) })
          [⟨1, "a", some "p", some "e", some "ad"⟩]
        = (.guest 200 (replaceFields
            { name := some (.jstr "Bob"), guestid := some (.jint 9) }
            ⟨1, "a", some "p", some "e", some "ad"⟩), t2)
      ∧ (replaceFields { name := some (.jstr "Bob"), guestid := some (.jint 9) }
          ⟨1, "a", some "p", some "e", some "ad"⟩).guestid = 1
      ∧ (replaceFields { name := some (.jstr "Bob"), guestid := some (.jint 9) }
          ⟨1, "a", some "p", some "e", some "ad"⟩).name
            = jsTrim (nameOf { name := some (.jstr "Bob"), guestid := some (.jint 9) })
      ∧ (({ name := some (.jstr "Bob"), guestid := some (.jint 9) } : GuestInput).phone = none
          → (replaceFields { name := some (.jstr "Bob"), guestid := some (.jint 9) }
              ⟨1, "a", some "p", some "e", some "ad"⟩).phone = none)
      ∧ (({ name := some (.jstr "Bob"), guestid := some (.jint 9) } : GuestInput).email = none
          → (replaceFields { name := some (.jstr "Bob"), guestid := some (.jint 9) }
              ⟨1, "a", some "p", some "e", some "ad"⟩).email = none)
      ∧ (({ name := some (.jstr "Bob"), guestid := some (.jint 9) } : GuestInput).address = none
          → (replaceFields { name := some (.jstr "Bob"), guestid := some (.jint 9) }
              ⟨1, "a", some "p", some "e", some "ad"⟩).address = none)
      ∧ findGuest t2 1 = some (replaceFields
          { name := some (.jstr "Bob"), guestid := some (.jint 9) }
          ⟨1, "a", some "p", some "e", some "ad"⟩)
      ∧ ∀ i, i ≠ 1 → findGuest t2 i
          = findGuest [⟨1, "a", some "p", some "e", some "ad"⟩] i :=
  putGuest_full_replace [⟨1, "a", some "p", some "e", some "ad"⟩] 1
    ⟨1, "a", some "p", some "e", some "ad"⟩
    { name := some (.jstr "Bob"), guestid := some (.jint 9) }
    (by decide) (by decide) (by decide)

/-- C1: a valid create without a supplied guestid returns the record at
the datastore's auto-assigned id; a valid create with a supplied positive
integer id not already present yields a record that a subsequent GET by
that id returns identically, with absent optional fields stored as
null. -/
theorem create_roundtrip (b : GuestInput) (t : List Guest)
    (hv : validateGuest b = []) :
    (suppliedGuestId b.guestid = none →
      ∃ g t2, createGuest (some b) t = (.guest 201 g, t2)
        ∧ g.guestid = nextAutoId t)
    ∧ ∀ n : Int, b.guestid = some (.jint n) → 0 < n → findGuest t n = none →
        ∃ g t2, createGuest (some b) t = (.guest 201 g, t2)
          ∧ getGuest (.int n) t2 = (.guest 200 g, t2)
          ∧ g.guestid = n
          ∧ g.name = jsTrim (nameOf b)
          ∧ (b.phone = none → g.phone = none)
          ∧ (b.email = none → g.email = none)
          ∧ (b.address = none → g.address = none) := by
  constructor
  · intro hid
    rw [createGuest_valid_auto b t hv hid]
    exact ⟨_, _, rfl, rfl⟩
  · intro n hid hn hfree
    have hsid : suppliedGuestId b.guestid = some (.jint n) := by
      rw [hid]
      rfl
    rw [createGuest_valid_supplied b t n hv hsid hfree]
    refine ⟨newGuest b n, _, rfl, ?_, rfl, rfl, ?_, ?_, ?_⟩
    · have hfresh : ∀ g2 ∈ t, g2.guestid ≠ (newGuest b n).guestid := by
        intro g2 hg2
        have := (findGuest_eq_none_iff t n).mp hfree g2 hg2
        simpa [newGuest] using this
      have hfind : findGuest (t ++ [newGuest b n]) n = some (newGuest b n) := by
        have := findGuest_append_fresh t (newGuest b n) hfresh
        simpa [newGuest] using this
      simp [getGuest, isPositiveInt_int n hn, JsNum.toInt, hfind]
    · intro h
      simp [newGuest, strOrNull, h]
    · intro h
      simp [newGuest, strOrNull, h]
    · intro h
      simp [newGuest, strOrNull, h]

/-- Witness for C1: create with supplied fresh id 5, then GET it. -/
theorem create_roundtrip_witness :
    ∃ g t2, createGuest
          (some { guestid := some (.jint 5), name := some (.jstr "Alice") }) []
        = (.guest 201 g, t2)
      ∧ getGuest (.int 5) t2 = (.guest 200 g, t2)
      ∧ g.guestid = 5
      ∧ g.name = jsTrim (nameOf { guestid := some (.jint 5), name := some (.jstr "Alice") })
      ∧ (({ guestid := some (.jint 5), name := some (.jstr "Alice") } : GuestInput).phone = none
          → g.phone = none)
      ∧ (({ guestid := some (.jint 5), name := some (.jstr "Alice") } : GuestInput).email = none
          → g.email = none)
      ∧ (({ guestid := some (.jint 5), name := some (.jstr "Alice") } : GuestInput).address = none
          → g.address = none) :=
  (create_roundtrip { guestid := some (.jint 5), name := some (.jstr "Alice") } []
    (by decide)).2 5 rfl (by decide) (by decide)

theorem getGuest_state (idv : JsNum) (t : List Guest) : (getGuest idv t).2 = t := by
  by_cases h : isPositiveInt idv = false
  · simp [getGuest, h]
  · cases hf : findGuest t idv.toInt <;> simp [getGuest, h, hf]

/-- C8: GET, PUT and DELETE with a non-positive or non-integral id return
400 with the table untouched whatever its contents, and every 400 or 404
response of any handler leaves the datastore unchanged (a handler either
completes its mutation or returns before mutating). -/
theorem badId_400_and_error_responses_pure :
    (∀ (idv : JsNum) (t : List Guest) (body? : Option GuestInput),
      isPositiveInt idv = false →
        getGuest idv t = (.msg 400 "guestid must be positive integer", t)
        ∧ putGuest idv body? t = (.msg 400 "guestid must be positive integer", t)
        ∧ deleteGuest idv t = (.msg 400 "guestid must be positive integer", t))
    ∧ ∀ (r : Request) (t : List Guest),
        (applyRequest r t).1.status = 400 ∨ (applyRequest r t).1.status = 404 →
        (applyRequest r t).2 = t := by
  constructor
  · intro idv t body? h
    exact ⟨by simp [getGuest, h], by simp [putGuest, h], by simp [deleteGuest, h]⟩
  · intro r t hstatus
    match r with
    | .list => rfl
    | .get idv => exact getGuest_state idv t
    | .put idv body? =>
      show (putGuest idv body? t).2 = t
      cases idv with
      | notInt => simp [putGuest, isPositiveInt]
      | int n =>
        by_cases hn : 0 < n
        case neg =>
          have hbad : isPositiveInt (.int n) = false := by
            simp [isPositiveInt]
            omega
          simp [putGuest, hbad]
        case pos =>
          cases hfind : findGuest t n with
          | none => simp [putGuest, isPositiveInt_int n hn, JsNum.toInt, hfind]
          | some g0 =>
            match body? with
            | none => simp [putGuest, isPositiveInt_int n hn, JsNum.toInt, hfind]
            | some b =>
              by_cases hv : validateGuest b = []
              · simp only [applyRequest] at hstatus
                rw [putGuest_valid_eq t n g0 b hn hfind hv] at hstatus ⊢
                simp [ApiResult.status] at hstatus
              · have hlen : 0 < (validateGuest b).length := List.length_pos.mpr hv
                simp [putGuest, isPositiveInt_int n hn, JsNum.toInt, hfind, hlen]
    | .del idv =>
      show (deleteGuest idv t).2 = t
      cases idv with
      | notInt => simp [deleteGuest, isPositiveInt]
      | int n =>
        by_cases hn : 0 < n
        case neg =>
          have hbad : isPositiveInt (.int n) = false := by
            simp [isPositiveInt]
            omega
          simp [deleteGuest, hbad]
        case pos =>
          by_cases hch :
              t.length - ((t.filter fun g => !(g.guestid == n))).length = 0
          · have hlen : ((t.filter fun g => !(g.guestid == n))).length = t.length := by
              have := List.length_filter_le (fun g => !(g.guestid == n)) t
              omega
            have heq : (t.filter fun g => !(g.guestid == n)) = t :=
              List.Sublist.eq_of_length (List.filter_sublist t) hlen
            simp [deleteGuest, isPositiveInt_int n hn, JsNum.toInt, hch, heq]
          · have : deleteGuest (.int n) t
                = (.msg 200 "deleted", t.filter fun g => !(g.guestid == n)) := by
              simp [deleteGuest, isPositiveInt_int n hn, JsNum.toInt, hch]
            simp only [applyRequest] at hstatus
            rw [this] at hstatus
            simp [ApiResult.status] at hstatus
    | .create body? =>
      show (createGuest body? t).2 = t
      match body? with
      | none => rfl
      | some b =>
        by_cases hv : validateGuest b = []
        case neg => rw [createGuest_invalid b t hv]
        case pos =>
          match hid : suppliedGuestId b.guestid with
          | none =>
            simp only [applyRequest] at hstatus
            rw [createGuest_valid_auto b t hv hid] at hstatus ⊢
            simp [ApiResult.status] at hstatus
          | some (.jint n) =>
            cases hfree : findGuest t n with
            | none =>
              simp only [applyRequest] at hstatus
              rw [createGuest_valid_supplied b t n hv hid hfree] at hstatus ⊢
              simp [ApiResult.status] at hstatus
            | some g0 =>
              have heq : createGuest (some b) t
                  = (.internal "UNIQUE constraint failed: guests.guestid", t) := by
                simp [createGuest, hv, hid, dbInsert, hfree]
              rw [heq]
          | some (.jstr s) | some .jnum | some (.jbool c) | some .jnull | some .jobj =>
            have heq : createGuest (some b) t = (.internal "datatype mismatch", t) := by
              simp [createGuest, hv, hid, dbInsert]
            rw [heq]

/-- Witness for C8: a NaN-like id on the empty table, and a 404 delete. -/
theorem badId_400_and_error_responses_pure_witness :
    (getGuest .notInt [] = (.msg 400 "guestid must be positive integer", [])
      ∧ putGuest .notInt none [] = (.msg 400 "guestid must be positive integer", [])
      ∧ deleteGuest .notInt [] = (.msg 400 "guestid must be positive integer", []))
    ∧ (applyRequest (.del (.int 2)) []).2 = [] :=
  ⟨badId_400_and_error_responses_pure.1 .notInt [] none (by decide),
   badId_400_and_error_responses_pure.2 (.del (.int 2)) [] (Or.inr (by decide))⟩

/-- C3 as stated is false: a create may supply guestid 0 (the handlers
never validate a supplied guestid), reaching a state that violates the
positivity half of the invariant. -/
theorem inv_not_universally_reachable :
    ¬ ∀ rs : List Request, Inv (runRequests rs []) := by
  intro h
  have h0 := h [.create (some { guestid := some (.jint 0), name := some (.jstr "a") })]
  revert h0
  decide

/-- C3 amended: the invariant — unique positive guestids, names non-empty
after trimming — holds in every state reachable from the empty table,
provided every create that supplies a non-null guestid supplies a
positive integer. -/
theorem Inv_reachable (rs : List Request) (hrs : ∀ r ∈ rs, goodReq r = true) :
    Inv (runRequests rs []) :=
  Inv_runRequests rs [] (by decide) hrs

/-- Witness for C3 (amended): a concrete sequence exercising create (auto
and supplied id), replace and delete. -/
theorem Inv_reachable_witness :
    Inv (runRequests
      [.create (some { name := some (.jstr " Ann ") }),
       .put (.int 1) (some { name := some (.jstr "Bob"), guestid := some (.jint 7) }),
       .create (some { guestid := some (.jint 5), name := some (.jstr "Cy") }),
       .del (.int 5)] []) :=
  Inv_reachable _ (by decide)

end GuestApi
